import Mathlib

/-!
Verification of the montoya INI parser/serializer.

Shallow embedding of the Go sources:
  tokenizer.go  : token classification (`convertToken`)
  bytes.go      : byte-class constant tables (`invertByteSet`, the valid/invalid sets)
  ast.go        : line/node model, per-line serialization (`Read`), `Terminated`,
                  the value state machine (`valueStringState`) and its predicates
  parser.go     : the streaming parser (`iniParser.parse`, `advanceLine`,
                  `parseEmptyLine`, `parseKeyValueLine`, `parseSectionHeaderLine`)
  ini.go        : `IniFile` and its streaming `Read`

Bytes are modelled as `Nat` (inputs range over 0..255; theorems that need the
bound state it explicitly).  Go `nil` pointers are modelled as `none`; a nil
pointer dereference (a Go runtime panic) is modelled by a function returning
`none`.  Mutation is modelled by explicit state passing.
-/

deriving instance DecidableEq for Except

namespace Montoya

/-! ### Byte constants (bytes.go) -/

def B_NULL : Nat := 0x00
def B_NEWLINE : Nat := 0x0A
def B_SPACE : Nat := 0x20
def B_TAB : Nat := 0x09
def B_CR : Nat := 0x0D
def B_BRACKET : Nat := 0x5B
def B_BRACKETCLOSE : Nat := 0x5D
def B_HASH : Nat := 0x23
def B_SEMICOLON : Nat := 0x3B
def B_EQUALS : Nat := 0x3D
def B_QUOTE : Nat := 0x22
def B_BACKSLASH : Nat := 0x5C
def B_US : Nat := 0x1F

/-! ### Token classifier (tokenizer.go) -/

/-- TokenType mirrors the constant block of tokenizer.go. -/
inductive TokenType where
  | Whitespace
  | CommentStart
  | SectionStart
  | SectionEnd
  | NewLine
  | Equals
  | Quote
  | Other
deriving DecidableEq

/-- convertToken mirrors `convertToken` of tokenizer.go: a switch on the raw
byte with a default of `Other`. -/
def convertToken (b : Nat) : TokenType :=
  if b = B_NEWLINE then .NewLine
  else if b = B_BRACKET then .SectionStart
  else if b = B_BRACKETCLOSE then .SectionEnd
  else if b = B_EQUALS then .Equals
  else if b = B_SEMICOLON ∨ b = B_HASH then .CommentStart
  else if b = B_QUOTE then .Quote
  else if b = B_SPACE ∨ b = B_TAB ∨ b = B_CR then .Whitespace
  else .Other

/-! ### Byte-class tables (bytes.go) -/

/-- invertByteSet mirrors `invertByteSet`: all byte values 0..255 not in
`invalid`, in increasing order. -/
def invertByteSet (invalid : List Nat) : List Nat :=
  (List.range 256).filter (fun b => !(invalid.contains b))

def commentStartBytes : List Nat := [B_HASH, B_SEMICOLON]

def validWhitespaceByteSet : List Nat := [B_SPACE, B_TAB, B_CR]

def invalidValueByteSetUnquoted : List Nat :=
  [B_NULL, B_NEWLINE, B_HASH, B_SEMICOLON, B_QUOTE]

def validValueByteSetUnquoted : List Nat := invertByteSet invalidValueByteSetUnquoted

def invalidValueByteSetQuoted : List Nat := [B_NULL, B_NEWLINE]

def validValueByteSetQuoted : List Nat := invertByteSet invalidValueByteSetQuoted

/-- invalidKeyByteSet mirrors the explicit list in bytes.go: all control
characters 0x00..0x1F plus space, `=`, `[`, `]`. -/
def invalidKeyByteSet : List Nat :=
  [0x00, 0x01, 0x02, 0x03, 0x04, 0x05, 0x06, 0x07, 0x08, 0x09, 0x0A, 0x0B,
   0x0C, 0x0D, 0x0E, 0x0F, 0x10, 0x11, 0x12, 0x13, 0x14, 0x15, 0x16, 0x17,
   0x18, 0x19, 0x1A, 0x1B, 0x1C, 0x1D, 0x1E, 0x1F,
   B_SPACE, B_EQUALS, B_BRACKET, B_BRACKETCLOSE]

def validKeyByteSet : List Nat := invertByteSet invalidKeyByteSet

/-- isKeyByte mirrors `isKeyByte` of ast.go: membership in `validKeyByteSet`. -/
def isKeyByte (input : Nat) : Bool := validKeyByteSet.contains input

/-! ### Value state machine (ast.go, `valueStringState`) -/

/-- The VALUE_PARSE_* states of ast.go. -/
inductive VState where
  | whitespace        -- VALUE_PARSE_WHITESPACE
  | quoted            -- VALUE_PARSE_QUOTED
  | quotedBackslash   -- VALUE_PARSE_QUOTED_BACKSLASH
  | quotedTerminated  -- VALUE_PARSE_QUOTED_TERMINATED
  | unquoted          -- VALUE_PARSE_UNQUOTED
  | error             -- VALUE_PARSE_ERROR
deriving DecidableEq

/-- One iteration of the loop body of `valueStringState` (ast.go).  The Go
code returns `VALUE_PARSE_ERROR` early; that is modelled by making `error`
absorbing, which yields the same final result for the whole fold. -/
def valueStringStep (state : VState) (token : Nat) : VState :=
  match state with
  | .whitespace =>
      match convertToken token with
      | .Whitespace => .whitespace
      | .Quote => .quoted
      | _ =>
          if validValueByteSetUnquoted.contains token then .unquoted
          else .error
  | .quoted =>
      if token = B_BACKSLASH then .quotedBackslash
      else if token = B_QUOTE then .quotedTerminated
      else if invalidValueByteSetQuoted.contains token then .error
      else .quoted
  | .quotedTerminated =>
      if convertToken token ≠ .Whitespace then .error else .quotedTerminated
  | .quotedBackslash =>
      if invalidValueByteSetQuoted.contains token then .error else .quoted
  | .unquoted =>
      if invalidValueByteSetUnquoted.contains token then .error else .unquoted
  | .error => .error

/-- valueStringState mirrors `valueStringState` of ast.go: a left-to-right
scan over the content starting in the whitespace state. -/
def valueStringState (content : List Nat) : VState :=
  content.foldl valueStringStep .whitespace

/-- inQuotedString (ast.go): the content is an open quoted string. -/
def inQuotedString (content : List Nat) : Bool :=
  valueStringState content == VState.quoted ||
    valueStringState content == VState.quotedBackslash

/-- isClosedQuotedString (ast.go): the content is a closed quoted string. -/
def isClosedQuotedString (content : List Nat) : Bool :=
  valueStringState content == VState.quotedTerminated

/-- isExtraQuoteLegal (ast.go): appending one more quote keeps the content
legal, i.e. the state is not terminated, unquoted or error. -/
def isExtraQuoteLegal (content : List Nat) : Bool :=
  !(valueStringState content == VState.quotedTerminated) &&
    !(valueStringState content == VState.unquoted) &&
    !(valueStringState content == VState.error)

/-! ### Line/node model (ast.go)

Each Go node struct is a Lean structure; the `*Node` pointer fields of the
line structs become `Option` fields, `none` standing for a Go `nil` pointer. -/

structure WhitespaceNode where
  content : List Nat
deriving DecidableEq

structure CommentNode where
  symbol : Nat
  content : List Nat
deriving DecidableEq

structure HeaderNode where
  content : List Nat
deriving DecidableEq

structure KeyNode where
  content : List Nat
deriving DecidableEq

structure ValueNode where
  content : List Nat
deriving DecidableEq

structure EmptyLine where
  Padding : Option WhitespaceNode
  Comment : Option CommentNode
deriving DecidableEq

structure SectionHeaderLine where
  Padding : Option WhitespaceNode
  Header : Option HeaderNode
  PostPad : Option WhitespaceNode
  Comment : Option CommentNode
deriving DecidableEq

structure KeyValueLine where
  Padding : Option WhitespaceNode
  Key : Option KeyNode
  PostKeyPad : Option WhitespaceNode
  Value : Option ValueNode
  Comment : Option CommentNode
deriving DecidableEq

/-- The three IniLine variants (the Go `IniLine` interface). -/
inductive IniLine where
  | emptyLine (l : EmptyLine)
  | sectionHeaderLine (l : SectionHeaderLine)
  | keyValueLine (l : KeyValueLine)
deriving DecidableEq

/-- Terminated for EmptyLine (ast.go): always true. -/
def EmptyLine.Terminated (_ : EmptyLine) : Bool := true

/-- Terminated for SectionHeaderLine (ast.go): the parser adds a PostPad node
when the section header terminates. -/
def SectionHeaderLine.Terminated (l : SectionHeaderLine) : Bool :=
  l.PostPad.isSome

/-- Terminated for KeyValueLine (ast.go): false when the parser never saw
`B_EQUALS`; otherwise the value state must be whitespace, terminated-quoted
or unquoted. -/
def KeyValueLine.Terminated (l : KeyValueLine) : Bool :=
  match l.Value with
  | none => false
  | some v =>
      valueStringState v.content == VState.whitespace ||
        valueStringState v.content == VState.quotedTerminated ||
        valueStringState v.content == VState.unquoted

/-! ### Per-line serialization buffers (the `Read` methods of ast.go)

On its first `Read`, each line populates `ReadBuf` by dereferencing its node
pointers unconditionally; a `nil` optional node makes the Go code panic.
`readBuf` returns the populated buffer, or `none` when Go would panic. -/

/-- Buffer populated by `EmptyLine.Read`: Padding.content ++ Comment.content,
panicking (`none`) when either pointer is nil. -/
def EmptyLine.readBuf (l : EmptyLine) : Option (List Nat) :=
  match l.Padding, l.Comment with
  | some p, some c => some (p.content ++ c.content)
  | _, _ => none

/-- Buffer populated by `SectionHeaderLine.Read`: Padding ++ Header ++
PostPad ++ Comment contents; note no brackets are emitted. -/
def SectionHeaderLine.readBuf (l : SectionHeaderLine) : Option (List Nat) :=
  match l.Padding, l.Header, l.PostPad, l.Comment with
  | some p, some h, some pp, some c =>
      some (p.content ++ h.content ++ pp.content ++ c.content)
  | _, _, _, _ => none

/-- Buffer populated by `KeyValueLine.Read`: Padding ++ Key ++ PostKeyPad ++
`=` ++ Value ++ Comment contents. -/
def KeyValueLine.readBuf (l : KeyValueLine) : Option (List Nat) :=
  match l.Padding, l.Key, l.PostKeyPad, l.Value, l.Comment with
  | some p, some k, some pp, some v, some c =>
      some (p.content ++ k.content ++ pp.content ++ [B_EQUALS] ++ v.content ++ c.content)
  | _, _, _, _, _ => none

def IniLine.readBuf : IniLine → Option (List Nat)
  | .emptyLine l => l.readBuf
  | .sectionHeaderLine l => l.readBuf
  | .keyValueLine l => l.readBuf

def IniLine.Terminated : IniLine → Bool
  | .emptyLine l => l.Terminated
  | .sectionHeaderLine l => l.Terminated
  | .keyValueLine l => l.Terminated

/-! ### The streaming parser (parser.go)

The parser's `currentLine`/`currentNode` pair is modelled by `ParserLine`:
one constructor per reachable (line variant, active node) configuration.
The Go `currentNode` is a pointer into the current line, except for the
whitespace node of an `EmptyLine`, which is attached as `Padding` only on the
very first line (`parse` starts with `EmptyLine{Padding: whiteSpace}`) or when
a comment starts (`line.Padding = node`); `advanceLine` creates a fresh
`EmptyLine{}` and a fresh unattached `WhitespaceNode` — hence the `attached`
flag. -/

inductive ParserLine where
  /-- currentLine is an EmptyLine, currentNode its whitespace node holding
  `pad`; `attached` says whether `line.Padding` points at that node. -/
  | emptyWhitespace (pad : List Nat) (attached : Bool)
  /-- currentLine is an EmptyLine, currentNode its comment node. -/
  | emptyComment (padding : Option WhitespaceNode) (symbol : Nat) (content : List Nat)
  /-- currentLine is a SectionHeaderLine, currentNode its header node. -/
  | sectionHeader (padding : Option WhitespaceNode) (header : List Nat)
  /-- currentLine is a SectionHeaderLine, currentNode its post-pad node. -/
  | sectionPostPad (padding : Option WhitespaceNode) (header : List Nat) (postPad : List Nat)
  /-- currentLine is a SectionHeaderLine, currentNode its comment node. -/
  | sectionComment (padding : Option WhitespaceNode) (header : List Nat)
      (postPad : Option WhitespaceNode) (symbol : Nat) (content : List Nat)
  /-- currentLine is a KeyValueLine, currentNode its key node. -/
  | kvKey (padding : Option WhitespaceNode) (key : List Nat)
  /-- currentLine is a KeyValueLine, currentNode its post-key-pad node. -/
  | kvPostKeyPad (padding : Option WhitespaceNode) (key : List Nat) (postKeyPad : List Nat)
  /-- currentLine is a KeyValueLine, currentNode its value node. -/
  | kvValue (padding : Option WhitespaceNode) (key : List Nat)
      (postKeyPad : Option WhitespaceNode) (value : List Nat)
  /-- currentLine is a KeyValueLine, currentNode its comment node. -/
  | kvComment (padding : Option WhitespaceNode) (key : List Nat)
      (postKeyPad : Option WhitespaceNode) (value : Option ValueNode)
      (symbol : Nat) (content : List Nat)
deriving DecidableEq

/-- The IniLine value of the current line-in-progress, as read off the Go
objects at the moment the line is linked (`advanceLine`) or at end of input
(`p.file.Tail = p.currentLine`). -/
def finalizeLine : ParserLine → IniLine
  | .emptyWhitespace pad attached =>
      .emptyLine ⟨if attached then some ⟨pad⟩ else none, none⟩
  | .emptyComment p s c => .emptyLine ⟨p, some ⟨s, c⟩⟩
  | .sectionHeader p h => .sectionHeaderLine ⟨p, some ⟨h⟩, none, none⟩
  | .sectionPostPad p h pp => .sectionHeaderLine ⟨p, some ⟨h⟩, some ⟨pp⟩, none⟩
  | .sectionComment p h pp s c => .sectionHeaderLine ⟨p, some ⟨h⟩, pp, some ⟨s, c⟩⟩
  | .kvKey p k => .keyValueLine ⟨p, some ⟨k⟩, none, none, none⟩
  | .kvPostKeyPad p k pp => .keyValueLine ⟨p, some ⟨k⟩, some ⟨pp⟩, none, none⟩
  | .kvValue p k pp v => .keyValueLine ⟨p, some ⟨k⟩, pp, some ⟨v⟩, none⟩
  | .kvComment p k pp v s c => .keyValueLine ⟨p, some ⟨k⟩, pp, v, some ⟨s, c⟩⟩

/-- Lower-case hex digit, as produced by Go's `%x`. -/
def hexDigit (n : Nat) : Char :=
  if n < 10 then Char.ofNat (48 + n) else Char.ofNat (87 + n)

/-- Two-digit lower-case hex of a byte, as produced by Go's `%02x`. -/
def byteHex (b : Nat) : String :=
  String.mk [hexDigit (b / 16 % 16), hexDigit (b % 16)]

/-- One byte of line-level parsing: the bodies of `parseEmptyLine`,
`parseKeyValueLine` and `parseSectionHeaderLine` (parser.go), dispatched on
the (line, node) configuration.  `tok` is `convertToken b`; errors carry the
message text, positioned later by the caller via `iniParser.Err`. -/
def lineStep (cur : ParserLine) (b : Nat) (tok : TokenType) : Except String ParserLine :=
  match cur with
  | .emptyWhitespace pad attached =>
      match tok with
      | .Whitespace => .ok (.emptyWhitespace (pad ++ [b]) attached)
      | .CommentStart => .ok (.emptyComment (some ⟨pad⟩) b [])
      | .SectionStart => .ok (.sectionHeader (some ⟨pad⟩) [])
      | _ =>
          if isKeyByte b then .ok (.kvKey (some ⟨pad⟩) [b])
          else .error ("invalid character " ++ byteHex b ++ " for empty line")
  | .emptyComment p s c => .ok (.emptyComment p s (c ++ [b]))
  | .kvKey p k =>
      if tok = .Equals then .ok (.kvValue p k none [])
      else if tok = .Whitespace then .ok (.kvPostKeyPad p k [b])
      else if isKeyByte b then .ok (.kvKey p (k ++ [b]))
      else .error ("invalid character " ++ byteHex b ++ " in key")
  | .kvPostKeyPad p k pp =>
      if tok = .Equals then .ok (.kvValue p k (some ⟨pp⟩) [])
      else if tok = .Whitespace then .ok (.kvPostKeyPad p k (pp ++ [b]))
      else .error ("invalid non-whitespace character " ++ byteHex b ++ " in key")
  | .kvValue p k pp v =>
      if tok = .CommentStart then
        if inQuotedString v then .ok (.kvValue p k pp (v ++ [b]))
        else .ok (.kvComment p k pp (some ⟨v⟩) b [])
      else if tok = .Quote then
        if isExtraQuoteLegal v then .ok (.kvValue p k pp (v ++ [b]))
        else .error "illegal quote character in value"
      else if tok = .Whitespace then .ok (.kvValue p k pp (v ++ [b]))
      else if b ≠ B_NULL then
        if isClosedQuotedString v then
          .error ("illegal character " ++ byteHex b ++ " after terminated quoted value")
        else .ok (.kvValue p k pp (v ++ [b]))
      else .error ("illegal character " ++ byteHex b ++ " in value")
  | .kvComment p k pp v s c => .ok (.kvComment p k pp v s (c ++ [b]))
  | .sectionHeader p h =>
      match tok with
      | .SectionEnd => .ok (.sectionPostPad p h [])
      | .CommentStart => .error "illegal comment start in bracket"
      | _ => .ok (.sectionHeader p (h ++ [b]))
  | .sectionPostPad p h pp =>
      match tok with
      | .CommentStart => .ok (.sectionComment p h (some ⟨pp⟩) b [])
      | .Whitespace => .ok (.sectionPostPad p h (pp ++ [b]))
      | _ =>
          .error ("illegal non-comment character " ++ byteHex b ++
            " after closed section header")
  | .sectionComment p h pp s c => .ok (.sectionComment p h pp s (c ++ [b]))

/-- A positioned parse error: the text plus `lineNo`/`colNo`, as assembled by
`iniParser.Err` (parser.go). -/
structure PError where
  text : String
  lineNo : Nat
  colNo : Nat
deriving DecidableEq

/-- The string built by `iniParser.Err`:
`fmt.Errorf("%s (line:%v, col:%v)", text, p.lineNo, p.colNo)`. -/
def PError.render (e : PError) : String :=
  e.text ++ " (line:" ++ toString e.lineNo ++ ", col:" ++ toString e.colNo ++ ")"

/-- The mutable state of `iniParser` (parser.go).  `linked` is the list of
lines already linked into the file's doubly linked list by `advanceLine`
(those reachable from `file.Head` via `Next`); `cur` is the
currentLine/currentNode pair. -/
structure ParserState where
  linked : List IniLine
  cur : ParserLine
  lineNo : Nat
  colNo : Nat
deriving DecidableEq

/-- The state set up at the top of `iniParser.parse`: a fresh whitespace node
attached as the padding of the initial EmptyLine. -/
def initParserState : ParserState :=
  ⟨[], .emptyWhitespace [] true, 0, 0⟩

/-- advanceLine (parser.go): link the current line at the end of the chain
(setting `file.Head` when it is the first), start a fresh EmptyLine with a
fresh unattached whitespace node, bump `lineNo`, reset `colNo`. -/
def advanceLine (s : ParserState) : ParserState :=
  ⟨s.linked ++ [finalizeLine s.cur], .emptyWhitespace [] false, s.lineNo + 1, 0⟩

/-- One iteration of the read loop of `iniParser.parse`: classify the byte; a
NewLine token finishes the line (`advanceLine`, then `continue` — skipping
the column increment); any other byte is dispatched to the per-line parse
function and, on success, `colNo` is incremented. -/
def parseStep (s : ParserState) (b : Nat) : Except PError ParserState :=
  let tok := convertToken b
  if tok = .NewLine then .ok (advanceLine s)
  else
    match lineStep s.cur b tok with
    | .error txt => .error ⟨txt, s.lineNo, s.colNo⟩
    | .ok cur2 => .ok ⟨s.linked, cur2, s.lineNo, s.colNo + 1⟩

/-- The read loop of `iniParser.parse` over the whole input. -/
def runParser : List Nat → ParserState → Except PError ParserState
  | [], s => .ok s
  | b :: rest, s =>
      match parseStep s b with
      | .error e => .error e
      | .ok s2 => runParser rest s2

/-- IniFile (ini.go).  `chain` is the sequence of lines reachable from `Head`
by `Next` links (exactly the lines linked by `advanceLine`, in order); `Head`
is its first element, if any.  `Tail` is the separate Go `Tail` pointer,
which `parse` sets to its final `currentLine` — an object `advanceLine` never
linked, hence kept apart from `chain`. -/
structure IniFile where
  chain : List IniLine
  Tail : Option IniLine
deriving DecidableEq

/-- The `Head` pointer: the first linked line, or nil. -/
def IniFile.Head (f : IniFile) : Option IniLine := f.chain.head?

/-- Parse (parser.go): run the loop from the initial state; at end of input
set `file.Tail = currentLine` and return the file. -/
def Parse (input : List Nat) : Except PError IniFile :=
  match runParser input initParserState with
  | .error e => .error e
  | .ok s => .ok ⟨s.linked, some (finalizeLine s.cur)⟩

/-! ### The streaming serializer (`IniFile.Read`, ini.go)

`Read` starts at `Head` and walks `Next` links, draining each line's
`readBuf`; it signals `io.EOF` with no data exactly when `Head` is nil (empty
chain), and it sets `done` (after which it reports end-of-data) only upon
draining the line that is pointer-equal to `Tail`.  Because `parse` never
links its final `currentLine`, `Tail` is never an element of the `Next`
chain, so the walk falls off the end of the chain without ever reaching
`Tail`: after the chain is drained every further call returns 0 bytes with a
nil error and end-of-data is never signalled. -/

inductive SerializeOutcome where
  /-- `Read` signalled `io.EOF`: serialization finished with these bytes. -/
  | eofReached (bytes : List Nat)
  /-- a per-line `Read` dereferenced a nil node pointer: runtime panic. -/
  | panicked
  /-- the chain drained to these bytes but `done` was never set: repeated
  `Read` calls return `(0, nil)` forever and never signal end-of-data. -/
  | noEofSignal (bytes : List Nat)
deriving DecidableEq

/-- The total effect of calling `IniFile.Read` repeatedly until end-of-data,
as described above. -/
def serializeAll (f : IniFile) : SerializeOutcome :=
  match f.chain with
  | [] => .eofReached []
  | _ =>
      match f.chain.mapM IniLine.readBuf with
      | none => .panicked
      | some bufs => .noEofSignal bufs.flatten

/-! ### Basic facts about the token classifier -/

theorem convertToken_newline_iff (b : Nat) :
    convertToken b = TokenType.NewLine ↔ b = B_NEWLINE := by
  unfold convertToken
  split_ifs <;> simp_all [B_NEWLINE, B_BRACKET, B_BRACKETCLOSE, B_EQUALS,
    B_SEMICOLON, B_HASH, B_QUOTE, B_SPACE, B_TAB, B_CR]

/-! ### Claim theorems: serializer and file-shape claims -/

/-- Claim C1 (round trip).  The claim fails on the code: parsing the one-byte
input "a" succeeds (as a KeyValueLine in progress), but since `advanceLine`
never ran, `Head` is nil and `IniFile.Read` signals end-of-data immediately,
so serialization reproduces zero bytes instead of the input. -/
theorem claim1_roundtrip_fails_on_lone_key :
    (Parse [0x61]).map serializeAll = .ok (SerializeOutcome.eofReached []) ∧
      SerializeOutcome.eofReached [0x61] ≠ SerializeOutcome.eofReached [] :=
  ⟨by decide, by decide⟩

/-- Claim C3 (final line finalized and appended).  The claim fails on the
code: for the single-line input "a", `Head` is nil while `Tail` holds the
line with the final bytes (so `Head` is not `Tail`); for "x\n" the `Next`
chain from `Head` contains only the key-value line while `Tail` is a fresh
empty line that was never linked. -/
theorem claim3_tail_not_linked :
    (Parse [0x61]).map (fun f => (f.Head, f.Tail)) =
      .ok (none, some (.keyValueLine ⟨some ⟨[]⟩, some ⟨[0x61]⟩, none, none, none⟩)) ∧
    (Parse [0x78, 0x0A]).map (fun f => (f.chain, f.Tail)) =
      .ok ([.keyValueLine ⟨some ⟨[]⟩, some ⟨[0x78]⟩, none, none, none⟩],
        some (.emptyLine ⟨none, none⟩)) :=
  ⟨by decide, by decide⟩

/-- Claim C4 (serialization total, no panic on absent optional nodes).  The
claim fails on the code: the head line of `Parse "\n"` is an EmptyLine whose
`Comment` is nil, and `EmptyLine.Read` dereferences `l.Comment.content`
unconditionally, a nil-pointer panic (modelled as `none`). -/
theorem claim4_read_panics_on_blank_line :
    (Parse [0x0A]).map (fun f => f.chain.map IniLine.readBuf) = .ok [none] ∧
      (Parse [0x0A]).map serializeAll = .ok SerializeOutcome.panicked :=
  ⟨by decide, by decide⟩

/-- Claim C5 (bare newline).  Parsing "\n" yields a file whose line list (the
`Next` chain from `Head`) is exactly one EmptyLine with present-but-empty
padding and no comment. -/
theorem claim5_bare_newline :
    (Parse [0x0A]).map IniFile.chain = .ok [.emptyLine ⟨some ⟨[]⟩, none⟩] := by
  decide

/-- Claim C2, counterexample.  On the empty input, `Head` is nil but `Tail`
is not (it points at the untouched initial empty line-in-progress); on the
non-empty input "a" (no newline), `Head` is nil.  Both directions of the
claimed equivalence fail. -/
theorem claim2_head_tail_presence_counterexample :
    (Parse []).map (fun f => (f.Head, f.Tail)) =
      .ok (none, some (.emptyLine ⟨some ⟨[]⟩, none⟩)) ∧
    (Parse [0x61]).map IniFile.Head = .ok none :=
  ⟨by decide, by decide⟩

theorem runParser_linked_nil_iff (l : List Nat) (s s2 : ParserState)
    (h : runParser l s = .ok s2) :
    s2.linked = [] ↔ (s.linked = [] ∧ l.contains B_NEWLINE = false) := by
  induction l generalizing s with
  | nil =>
      simp only [runParser, Except.ok.injEq] at h
      subst h
      simp
  | cons b rest ih =>
      simp only [runParser, parseStep] at h
      by_cases htok : convertToken b = TokenType.NewLine
      · have hb : b = B_NEWLINE := (convertToken_newline_iff b).mp htok
        simp only [htok, if_pos rfl] at h
        have := ih (advanceLine s) h
        simp only [advanceLine] at this
        simp only [this, hb]
        simp
      · simp only [if_neg htok] at h
        cases hls : lineStep s.cur b (convertToken b) with
        | error e => rw [hls] at h; exact absurd h (by simp)
        | ok cur2 =>
            rw [hls] at h
            have := ih ⟨s.linked, cur2, s.lineNo, s.colNo + 1⟩ h
            simp only [this]
            have hb : ¬ b = B_NEWLINE := fun hq => htok ((convertToken_newline_iff b).mpr hq)
            simp [List.contains_cons, hb]
            exact fun _ _ hq => hb hq.symm

/-- Claim C2, amended.  After any successful Parse, `Tail` is always present
(it points at the final line-in-progress even for the empty input), and
`Head` is present exactly when the input contains a newline byte, since only
`advanceLine` — run once per newline — links lines into the chain. -/
theorem claim2_head_tail_presence_amended (input : List Nat) (f : IniFile)
    (h : Parse input = .ok f) :
    f.Tail.isSome = true ∧
      (f.Head.isSome = true ↔ input.contains B_NEWLINE = true) := by
  unfold Parse at h
  cases hrun : runParser input initParserState with
  | error e => rw [hrun] at h; exact absurd h (by simp)
  | ok s =>
      rw [hrun] at h
      simp only [Except.ok.injEq] at h
      subst h
      refine ⟨rfl, ?_⟩
      have hlink := runParser_linked_nil_iff input initParserState s hrun
      simp only [initParserState] at hlink
      simp only [IniFile.Head]
      constructor
      · intro hh
        by_contra hc
        have hfalse : List.contains input B_NEWLINE = false := by
          cases hb : List.contains input B_NEWLINE with
          | false => rfl
          | true => exact absurd hb hc
        have : s.linked = [] := hlink.mpr ⟨trivial, hfalse⟩
        rw [this] at hh
        simp at hh
      · intro hc
        cases hl : s.linked with
        | nil =>
            have := (hlink.mp hl).2
            rw [hc] at this
            exact absurd this (by simp)
        | cons a as => simp [hl]

/-- Claim C2 witness: the amended statement instantiated at the input "\n". -/
theorem claim2_head_tail_presence_witness :
    (IniFile.Tail ⟨[.emptyLine ⟨some ⟨[]⟩, none⟩], some (.emptyLine ⟨none, none⟩)⟩).isSome
        = true ∧
      ((IniFile.Head ⟨[.emptyLine ⟨some ⟨[]⟩, none⟩],
          some (.emptyLine ⟨none, none⟩)⟩).isSome = true ↔
        List.contains [0x0A] B_NEWLINE = true) :=
  claim2_head_tail_presence_amended [0x0A]
    ⟨[.emptyLine ⟨some ⟨[]⟩, none⟩], some (.emptyLine ⟨none, none⟩)⟩ (by decide)

/-- Claim C8 (KeyValueLine.Terminated).  Terminated is false when no value
node exists (no `=` was seen); with a value it is true exactly when the
value state machine ends in whitespace, unquoted, or terminated-quoted; in
particular a value still inside an open quoted string (`inQuotedString`) is
not terminated. -/
theorem claim8_kv_terminated (p : Option WhitespaceNode) (k : Option KeyNode)
    (pp : Option WhitespaceNode) (c : Option CommentNode) (v : List Nat) :
    KeyValueLine.Terminated ⟨p, k, pp, none, c⟩ = false ∧
    (KeyValueLine.Terminated ⟨p, k, pp, some ⟨v⟩, c⟩ = true ↔
      (valueStringState v = VState.whitespace ∨ valueStringState v = VState.unquoted ∨
        valueStringState v = VState.quotedTerminated)) ∧
    (inQuotedString v = true → KeyValueLine.Terminated ⟨p, k, pp, some ⟨v⟩, c⟩ = false) := by
  refine ⟨rfl, ?_, ?_⟩
  · unfold KeyValueLine.Terminated
    cases hst : valueStringState v <;> simp [hst]
  · intro hq
    unfold inQuotedString at hq
    unfold KeyValueLine.Terminated
    cases hst : valueStringState v <;> simp [hst] at hq ⊢

/-- Claim C8 witness: a lone open quote is inside a quoted string and the
line holding it is not terminated. -/
theorem claim8_kv_terminated_witness :
    inQuotedString [0x22] = true ∧
      KeyValueLine.Terminated ⟨none, none, none, some ⟨[0x22]⟩, none⟩ = false :=
  ⟨by decide, (claim8_kv_terminated none none none none [0x22]).2.2 (by decide)⟩

/-! ### Claim C9: the token classifier against the section-3 mapping -/

/-- Modelled from the spec wording of the section-3 token-kind mapping: space,
tab and carriage return are Whitespace; `#` and `;` are CommentStart; `[` is
SectionStart; `]` is SectionEnd; newline is NewLine; `=` is Equals; `"` is
Quote; everything else, the null byte included, is Other. -/
def specConvertToken (b : Nat) : TokenType :=
  if b = 0x20 ∨ b = 0x09 ∨ b = 0x0D then .Whitespace
  else if b = 0x23 ∨ b = 0x3B then .CommentStart
  else if b = 0x5B then .SectionStart
  else if b = 0x5D then .SectionEnd
  else if b = 0x0A then .NewLine
  else if b = 0x3D then .Equals
  else if b = 0x22 then .Quote
  else .Other

set_option maxRecDepth 4096 in
/-- Claim C9: `convertToken` is total and pure on all 256 byte values and
agrees everywhere with the section-3 mapping. -/
theorem claim9_classifier (b : Nat) (h : b < 256) :
    convertToken b = specConvertToken b := by
  have hall : ∀ x : Fin 256, convertToken x.val = specConvertToken x.val := by decide
  exact hall ⟨b, h⟩

/-- Claim C9 witness: the classifier at the null byte. -/
theorem claim9_classifier_witness :
    convertToken 0 = specConvertToken 0 ∧ specConvertToken 0 = TokenType.Other :=
  ⟨claim9_classifier 0 (by decide), by decide⟩

/-! ### Claim C7: the value state machine against the section-4.2 description -/

/-- Modelled from the spec wording of the section-4.2 machine, one transition
per byte.  Whitespace is space/tab/carriage-return; the legal unquoted-value
bytes are all except null, newline, `#`, `;` and `"` (section 6). -/
def specValueStep (st : VState) (b : Nat) : VState :=
  match st with
  | .whitespace =>
      if b = 0x20 ∨ b = 0x09 ∨ b = 0x0D then .whitespace
      else if b = 0x22 then .quoted
      else if b ≠ 0x00 ∧ b ≠ 0x0A ∧ b ≠ 0x23 ∧ b ≠ 0x3B ∧ b ≠ 0x22 then .unquoted
      else .error
  | .quoted =>
      if b = 0x5C then .quotedBackslash
      else if b = 0x22 then .quotedTerminated
      else if b = 0x00 ∨ b = 0x0A then .error
      else .quoted
  | .quotedBackslash =>
      if b = 0x00 ∨ b = 0x0A then .error else .quoted
  | .quotedTerminated =>
      if b = 0x20 ∨ b = 0x09 ∨ b = 0x0D then .quotedTerminated else .error
  | .error => .error
  | .unquoted =>
      if b = 0x00 ∨ b = 0x0A ∨ b = 0x23 ∨ b = 0x3B ∨ b = 0x22 then .error
      else .unquoted

set_option maxRecDepth 8192 in
theorem valueStringStep_eq_spec (st : VState) (b : Nat) (h : b < 256) :
    valueStringStep st b = specValueStep st b := by
  have hall : ∀ x : Fin 256,
      valueStringStep .whitespace x.val = specValueStep .whitespace x.val ∧
      valueStringStep .quoted x.val = specValueStep .quoted x.val ∧
      valueStringStep .quotedBackslash x.val = specValueStep .quotedBackslash x.val ∧
      valueStringStep .quotedTerminated x.val = specValueStep .quotedTerminated x.val ∧
      valueStringStep .unquoted x.val = specValueStep .unquoted x.val ∧
      valueStringStep .error x.val = specValueStep .error x.val := by decide
  cases st with
  | whitespace => exact (hall ⟨b, h⟩).1
  | quoted => exact (hall ⟨b, h⟩).2.1
  | quotedBackslash => exact (hall ⟨b, h⟩).2.2.1
  | quotedTerminated => exact (hall ⟨b, h⟩).2.2.2.1
  | unquoted => exact (hall ⟨b, h⟩).2.2.2.2.1
  | error => exact (hall ⟨b, h⟩).2.2.2.2.2

theorem foldl_valueStringStep_eq_spec (l : List Nat) (st : VState)
    (h : ∀ b ∈ l, b < 256) :
    l.foldl valueStringStep st = l.foldl specValueStep st := by
  induction l generalizing st with
  | nil => rfl
  | cons b rest ih =>
      simp only [List.foldl_cons]
      rw [valueStringStep_eq_spec st b (h b (by simp))]
      exact ih (specValueStep st b) (fun x hx => h x (by simp [hx]))

/-- Claim C7: on every byte sequence, `valueStringState` computes exactly the
section-4.2 machine as a left-to-right scan starting in Whitespace. -/
theorem claim7_value_state_machine (content : List Nat)
    (h : ∀ b ∈ content, b < 256) :
    valueStringState content = content.foldl specValueStep VState.whitespace :=
  foldl_valueStringStep_eq_spec content .whitespace h

/-- Claim C7 witness: the machine on the quoted value bytes of k="a\"b". -/
theorem claim7_value_state_machine_witness :
    valueStringState [0x22, 0x61, 0x5C, 0x22, 0x62, 0x22] =
      List.foldl specValueStep VState.whitespace [0x22, 0x61, 0x5C, 0x22, 0x62, 0x22] :=
  claim7_value_state_machine [0x22, 0x61, 0x5C, 0x22, 0x62, 0x22] (by decide)

/-! ### Claim C6: delimiter bytes and node contents -/

/-- Claim C6, counterexample.  For the input k="a\"b" followed by a newline,
the parser stores the value content WITH its surrounding quote bytes
(`"a\"b"`, six bytes), not the four bytes `a\"b` the claim asserts. -/
theorem claim6_delimiters_counterexample :
    (Parse [0x6B, 0x3D, 0x22, 0x61, 0x5C, 0x22, 0x62, 0x22, 0x0A]).map IniFile.chain =
      .ok [.keyValueLine ⟨some ⟨[]⟩, some ⟨[0x6B]⟩, none,
        some ⟨[0x22, 0x61, 0x5C, 0x22, 0x62, 0x22]⟩, none⟩] ∧
    ([0x22, 0x61, 0x5C, 0x22, 0x62, 0x22] : List Nat) ≠ [0x61, 0x5C, 0x22, 0x62] :=
  ⟨by decide, by decide⟩

/-- Whether a byte classifies as whitespace. -/
def isWhitespaceByte (b : Nat) : Bool := convertToken b == TokenType.Whitespace

/-- Delimiter-exclusion invariant on a finalized line: a header node never
stores the closing bracket byte; a key node stores only legal key bytes (so
never `=`); a post-key padding node stores only whitespace bytes (so never
`=`). -/
def lineDelimOK : IniLine → Bool
  | .emptyLine _ => true
  | .sectionHeaderLine l =>
      ((l.Header.map HeaderNode.content).getD []).all (fun b => !(b == B_BRACKETCLOSE))
  | .keyValueLine l =>
      ((l.Key.map KeyNode.content).getD []).all isKeyByte &&
        ((l.PostKeyPad.map WhitespaceNode.content).getD []).all isWhitespaceByte

/-- The same invariant on the line-in-progress. -/
def curDelimOK : ParserLine → Bool
  | .emptyWhitespace _ _ => true
  | .emptyComment _ _ _ => true
  | .sectionHeader _ h => h.all (fun b => !(b == B_BRACKETCLOSE))
  | .sectionPostPad _ h _ => h.all (fun b => !(b == B_BRACKETCLOSE))
  | .sectionComment _ h _ _ _ => h.all (fun b => !(b == B_BRACKETCLOSE))
  | .kvKey _ k => k.all isKeyByte
  | .kvPostKeyPad _ k pp => k.all isKeyByte && pp.all isWhitespaceByte
  | .kvValue _ k pp _ =>
      k.all isKeyByte &&
        ((pp.map WhitespaceNode.content).getD []).all isWhitespaceByte
  | .kvComment _ k pp _ _ _ =>
      k.all isKeyByte &&
        ((pp.map WhitespaceNode.content).getD []).all isWhitespaceByte

theorem finalizeLine_delimOK (st : ParserLine) (h : curDelimOK st = true) :
    lineDelimOK (finalizeLine st) = true := by
  cases st <;> simp_all [curDelimOK, finalizeLine, lineDelimOK]

theorem sectionEnd_of_bracketclose (b : Nat) (h : (b == B_BRACKETCLOSE) = true) :
    convertToken b = TokenType.SectionEnd := by
  have hb : b = 0x5D := by simpa [B_BRACKETCLOSE] using h
  subst hb
  decide

theorem lineStep_delimOK (cur cur2 : ParserLine) (b : Nat)
    (h : lineStep cur b (convertToken b) = .ok cur2)
    (hok : curDelimOK cur = true) : curDelimOK cur2 = true := by
  cases cur with
  | emptyWhitespace pad attached =>
      cases htok : convertToken b <;> rw [htok] at h <;>
        simp only [lineStep] at h
      case Whitespace => cases h; simp [curDelimOK]
      case CommentStart => cases h; simp [curDelimOK]
      case SectionStart => cases h; simp [curDelimOK]
      all_goals
        by_cases hk : isKeyByte b <;> simp only [hk, if_pos, if_neg, if_true,
          if_false, Bool.false_eq_true, reduceIte] at h <;>
          first
            | (cases h; simp [curDelimOK, hk])
            | exact absurd h (by simp)
  | emptyComment p s c =>
      simp only [lineStep] at h
      cases h
      simp [curDelimOK]
  | kvKey p k =>
      simp only [lineStep] at h
      by_cases h1 : convertToken b = TokenType.Equals
      · rw [if_pos h1] at h
        cases h
        simpa [curDelimOK] using hok
      · rw [if_neg h1] at h
        by_cases h2 : convertToken b = TokenType.Whitespace
        · rw [if_pos h2] at h
          cases h
          simp only [curDelimOK] at hok ⊢
          simp [hok, isWhitespaceByte, h2]
        · rw [if_neg h2] at h
          by_cases hk : isKeyByte b
          · rw [if_pos hk] at h
            cases h
            simp only [curDelimOK] at hok ⊢
            simp [hok, hk]
          · rw [if_neg hk] at h
            exact absurd h (by simp)
  | kvPostKeyPad p k pp =>
      simp only [lineStep] at h
      by_cases h1 : convertToken b = TokenType.Equals
      · rw [if_pos h1] at h
        cases h
        simp only [curDelimOK] at hok ⊢
        simpa using hok
      · rw [if_neg h1] at h
        by_cases h2 : convertToken b = TokenType.Whitespace
        · rw [if_pos h2] at h
          cases h
          simp only [curDelimOK, Bool.and_eq_true] at hok
          simp only [curDelimOK]
          simp [List.all_append, hok.1, hok.2, isWhitespaceByte, h2]
        · rw [if_neg h2] at h
          exact absurd h (by simp)
  | kvValue p k pp v =>
      simp only [lineStep] at h
      by_cases h1 : convertToken b = TokenType.CommentStart
      · rw [if_pos h1] at h
        by_cases hq : inQuotedString v = true
        · rw [if_pos hq] at h
          cases h
          simpa [curDelimOK] using hok
        · rw [if_neg hq] at h
          cases h
          simpa [curDelimOK] using hok
      · rw [if_neg h1] at h
        by_cases h2 : convertToken b = TokenType.Quote
        · rw [if_pos h2] at h
          by_cases hl : isExtraQuoteLegal v = true
          · rw [if_pos hl] at h
            cases h
            simpa [curDelimOK] using hok
          · rw [if_neg hl] at h
            exact absurd h (by simp)
        · rw [if_neg h2] at h
          by_cases h3 : convertToken b = TokenType.Whitespace
          · rw [if_pos h3] at h
            cases h
            simpa [curDelimOK] using hok
          · rw [if_neg h3] at h
            by_cases h4 : b ≠ B_NULL
            · rw [if_pos h4] at h
              by_cases h5 : isClosedQuotedString v = true
              · rw [if_pos h5] at h
                exact absurd h (by simp)
              · rw [if_neg h5] at h
                cases h
                simpa [curDelimOK] using hok
            · rw [if_neg h4] at h
              exact absurd h (by simp)
  | kvComment p k pp vn s c =>
      simp only [lineStep] at h
      cases h
      simpa [curDelimOK] using hok
  | sectionHeader p hd =>
      cases htok : convertToken b <;> rw [htok] at h <;>
        simp only [lineStep] at h
      case SectionEnd => cases h; simpa [curDelimOK] using hok
      case CommentStart => exact absurd h (by simp)
      all_goals
        cases h
        have hb : (b == B_BRACKETCLOSE) = false := by
          cases hbb : b == B_BRACKETCLOSE
          · rfl
          · exact absurd (sectionEnd_of_bracketclose b hbb) (by simp [htok])
        simp only [curDelimOK, List.all_append, List.all_cons, List.all_nil] at hok ⊢
        simp [hok, hb]
  | sectionPostPad p hd pp =>
      cases htok : convertToken b <;> rw [htok] at h <;>
        simp only [lineStep] at h
      case CommentStart => cases h; simpa [curDelimOK] using hok
      case Whitespace => cases h; simpa [curDelimOK] using hok
      all_goals exact absurd h (by simp)
  | sectionComment p hd pp s c =>
      simp only [lineStep] at h
      cases h
      simpa [curDelimOK] using hok

theorem runParser_delimOK (l : List Nat) (s s2 : ParserState)
    (h : runParser l s = .ok s2)
    (hlinked : ∀ ln ∈ s.linked, lineDelimOK ln = true)
    (hcur : curDelimOK s.cur = true) :
    (∀ ln ∈ s2.linked, lineDelimOK ln = true) ∧ curDelimOK s2.cur = true := by
  induction l generalizing s with
  | nil =>
      simp only [runParser, Except.ok.injEq] at h
      subst h
      exact ⟨hlinked, hcur⟩
  | cons b rest ih =>
      simp only [runParser, parseStep] at h
      by_cases htok : convertToken b = TokenType.NewLine
      · simp only [htok, if_pos rfl] at h
        refine ih (advanceLine s) h ?_ ?_
        · intro ln hln
          simp only [advanceLine, List.mem_append, List.mem_singleton] at hln
          rcases hln with hln | hln
          · exact hlinked ln hln
          · subst hln
            exact finalizeLine_delimOK s.cur hcur
        · simp [advanceLine, curDelimOK]
      · simp only [if_neg htok] at h
        cases hls : lineStep s.cur b (convertToken b) with
        | error e => rw [hls] at h; exact absurd h (by simp)
        | ok cur2 =>
            rw [hls] at h
            exact ih ⟨s.linked, cur2, s.lineNo, s.colNo + 1⟩ h hlinked
              (lineStep_delimOK s.cur cur2 b hls hcur)

/-- Claim C6, amended.  For every node built by the parser the stored content
excludes the structural delimiter bytes, with one exception, the quotes:

(1) after every successful parse, no header node stores the closing bracket
`]`, every key node stores only legal key bytes (hence never the structural
`=`) and every post-key padding node stores only whitespace (hence never
`=`);
(2) the structural opening bracket `[` is consumed by the line-type
transition and creates the header node EMPTY — in every parser context it is
never stored;
(3), (4), (5) at each of the three comment-creation sites of the parser (an
empty line, after a closed section header, and in a value outside a quoted
string) the `#`/`;` start symbol byte is consumed into the separate `symbol`
field and the comment content is created empty, so the content omits the
start symbol (it then grows only by the bytes that follow the symbol);
(6) BUT every legally consumed quote byte is appended into the value node's
content: quote delimiters are INCLUDED in a quoted value's content,
(7) so for k="a\"b" the stored value content is exactly the six bytes
`"a\"b"` with both quotes. -/
theorem claim6_delimiters_amended :
    (∀ (input : List Nat) (f : IniFile), Parse input = .ok f →
      (∀ ln ∈ f.chain, lineDelimOK ln = true) ∧
        (∀ ln, f.Tail = some ln → lineDelimOK ln = true)) ∧
    (∀ (pad : List Nat) (attached : Bool) (b : Nat),
      convertToken b = TokenType.SectionStart →
      lineStep (.emptyWhitespace pad attached) b (convertToken b) =
        .ok (.sectionHeader (some ⟨pad⟩) [])) ∧
    (∀ (pad : List Nat) (attached : Bool) (b : Nat),
      convertToken b = TokenType.CommentStart →
      lineStep (.emptyWhitespace pad attached) b (convertToken b) =
        .ok (.emptyComment (some ⟨pad⟩) b [])) ∧
    (∀ (p : Option WhitespaceNode) (hd pp : List Nat) (b : Nat),
      convertToken b = TokenType.CommentStart →
      lineStep (.sectionPostPad p hd pp) b (convertToken b) =
        .ok (.sectionComment p hd (some ⟨pp⟩) b [])) ∧
    (∀ (p : Option WhitespaceNode) (k : List Nat) (pp : Option WhitespaceNode)
        (v : List Nat) (b : Nat),
      convertToken b = TokenType.CommentStart → inQuotedString v = false →
      lineStep (.kvValue p k pp v) b (convertToken b) =
        .ok (.kvComment p k pp (some ⟨v⟩) b [])) ∧
    (∀ (p : Option WhitespaceNode) (k : List Nat) (pp : Option WhitespaceNode)
        (v : List Nat) (b : Nat),
      convertToken b = TokenType.Quote → isExtraQuoteLegal v = true →
      lineStep (.kvValue p k pp v) b (convertToken b) =
        .ok (.kvValue p k pp (v ++ [b]))) ∧
    (Parse [0x6B, 0x3D, 0x22, 0x61, 0x5C, 0x22, 0x62, 0x22, 0x0A]).map IniFile.chain =
      .ok [.keyValueLine ⟨some ⟨[]⟩, some ⟨[0x6B]⟩, none,
        some ⟨[0x22, 0x61, 0x5C, 0x22, 0x62, 0x22]⟩, none⟩] := by
  refine ⟨?_, ?_, ?_, ?_, ?_, ?_, by decide⟩
  · intro input f h
    unfold Parse at h
    cases hrun : runParser input initParserState with
    | error e => rw [hrun] at h; exact absurd h (by simp)
    | ok s =>
        rw [hrun] at h
        simp only [Except.ok.injEq] at h
        subst h
        have := runParser_delimOK input initParserState s hrun
          (by intro ln hln; simp [initParserState] at hln) (by decide)
        refine ⟨this.1, ?_⟩
        intro ln hln
        simp only [Option.some.injEq] at hln
        subst hln
        exact finalizeLine_delimOK s.cur this.2
  · intro pad attached b htok
    rw [htok]
    exact rfl
  · intro pad attached b htok
    rw [htok]
    exact rfl
  · intro p hd pp b htok
    rw [htok]
    exact rfl
  · intro p k pp v b htok hq
    rw [htok]
    simp [lineStep, hq]
  · intro p k pp v b htok hl
    rw [htok]
    simp [lineStep, hl]

/-- Claim C6 witness: the amended statement applied concretely — the
invariant at the section line parsed from "[x]\n", the header node created
empty by `[`, the comment node created with empty content and symbol `#`,
and a quote byte appended into an empty value content. -/
theorem claim6_delimiters_witness :
    lineDelimOK (.sectionHeaderLine ⟨some ⟨[]⟩, some ⟨[0x78]⟩, some ⟨[]⟩, none⟩) = true ∧
    lineStep (.emptyWhitespace [] true) 0x5B (convertToken 0x5B) =
      .ok (.sectionHeader (some ⟨[]⟩) []) ∧
    lineStep (.emptyWhitespace [] true) 0x23 (convertToken 0x23) =
      .ok (.emptyComment (some ⟨[]⟩) 0x23 []) ∧
    lineStep (.kvValue (some ⟨[]⟩) [0x6B] none []) 0x22 (convertToken 0x22) =
      .ok (.kvValue (some ⟨[]⟩) [0x6B] none [0x22]) :=
  ⟨(claim6_delimiters_amended.1 [0x5B, 0x78, 0x5D, 0x0A]
      ⟨[.sectionHeaderLine ⟨some ⟨[]⟩, some ⟨[0x78]⟩, some ⟨[]⟩, none⟩],
        some (.emptyLine ⟨none, none⟩)⟩ (by decide)).1
    (.sectionHeaderLine ⟨some ⟨[]⟩, some ⟨[0x78]⟩, some ⟨[]⟩, none⟩) (by simp),
   claim6_delimiters_amended.2.1 [] true 0x5B (by decide),
   claim6_delimiters_amended.2.2.1 [] true 0x23 (by decide),
   claim6_delimiters_amended.2.2.2.2.2.1 (some ⟨[]⟩) [0x6B] none [] 0x22
     (by decide) (by decide)⟩

/-! ### Claim C10: positioned error on a null byte in a value -/

/-- The zero-based column of the byte following a consumed byte list: one per
byte consumed, reset to zero on each newline. -/
def colCount (l : List Nat) : Nat :=
  l.foldl (fun c b => if b = B_NEWLINE then 0 else c + 1) 0

theorem runParser_append (l1 l2 : List Nat) (s : ParserState) :
    runParser (l1 ++ l2) s =
      match runParser l1 s with
      | .error e => .error e
      | .ok s2 => runParser l2 s2 := by
  induction l1 generalizing s with
  | nil => simp [runParser]
  | cons b rest ih =>
      simp only [List.cons_append, runParser]
      cases parseStep s b with
      | error e => rfl
      | ok s2 => exact ih s2

theorem runParser_position (l : List Nat) (s s2 : ParserState)
    (h : runParser l s = .ok s2) :
    s2.lineNo = s.lineNo + l.count B_NEWLINE ∧
      s2.colNo = l.foldl (fun c b => if b = B_NEWLINE then 0 else c + 1) s.colNo := by
  induction l generalizing s with
  | nil =>
      simp only [runParser, Except.ok.injEq] at h
      subst h
      simp
  | cons b rest ih =>
      simp only [runParser, parseStep] at h
      by_cases htok : convertToken b = TokenType.NewLine
      · have hb : b = B_NEWLINE := (convertToken_newline_iff b).mp htok
        simp only [htok, if_pos rfl] at h
        have hrec := ih (advanceLine s) h
        simp only [advanceLine] at hrec
        subst hb
        simp only [List.count_cons, List.foldl_cons, if_pos rfl]
        constructor
        · rw [hrec.1]
          simp
          omega
        · simpa using hrec.2
      · have hb : ¬ b = B_NEWLINE := fun hq => htok ((convertToken_newline_iff b).mpr hq)
        simp only [if_neg htok] at h
        cases hls : lineStep s.cur b (convertToken b) with
        | error e => rw [hls] at h; exact absurd h (by simp)
        | ok cur2 =>
            rw [hls] at h
            have hrec := ih ⟨s.linked, cur2, s.lineNo, s.colNo + 1⟩ h
            simp only [List.count_cons, List.foldl_cons, if_neg hb]
            constructor
            · rw [hrec.1]
              simp [hb]
            · simpa using hrec.2

theorem lineStep_null_in_value (p : Option WhitespaceNode) (k : List Nat)
    (pp : Option WhitespaceNode) (v : List Nat) :
    lineStep (.kvValue p k pp v) 0 TokenType.Other =
      .error "illegal character 00 in value" := by
  simp [lineStep, B_NULL]
  decide

theorem parseStep_null_in_value (s : ParserState) (p : Option WhitespaceNode)
    (k : List Nat) (pp : Option WhitespaceNode) (v : List Nat)
    (hcur : s.cur = .kvValue p k pp v) :
    parseStep s 0 = .error ⟨"illegal character 00 in value", s.lineNo, s.colNo⟩ := by
  have h0 : convertToken 0 = TokenType.Other := by decide
  simp [parseStep, hcur, h0, lineStep_null_in_value]

/-- Claim C10: whenever the parser is filling a value node (outside a quoted
context) and the next input byte is null, Parse fails with a fatal error
whose message names the byte (`00`) and whose position is the byte's
zero-based line (newlines consumed so far) and zero-based column (raw bytes
consumed since the last newline). -/
theorem claim10_null_in_value (input : List Nat) (i : Nat) (s : ParserState)
    (p : Option WhitespaceNode) (k : List Nat) (pp : Option WhitespaceNode)
    (v : List Nat)
    (hrun : runParser (input.take i) initParserState = .ok s)
    (hcur : s.cur = .kvValue p k pp v)
    (hq : inQuotedString v = false)
    (hb : input[i]? = some 0) :
    Parse input = .error ⟨"illegal character 00 in value",
      (input.take i).count B_NEWLINE, colCount (input.take i)⟩ := by
  obtain ⟨hi, hval⟩ := List.getElem?_eq_some.mp hb
  have hsplit : input = input.take i ++ 0 :: input.drop (i + 1) := by
    conv_lhs => rw [← List.take_append_drop i input]
    congr 1
    rw [List.drop_eq_getElem_cons hi, hval]
  have hP : Parse input =
      .error ⟨"illegal character 00 in value", s.lineNo, s.colNo⟩ := by
    conv_lhs => rw [hsplit]
    unfold Parse
    rw [runParser_append, hrun]
    simp only [runParser]
    rw [parseStep_null_in_value s p k pp v hcur]
  rw [hP]
  have hpos := runParser_position (input.take i) initParserState s hrun
  simp only [initParserState] at hpos
  rw [hpos.1, hpos.2]
  simp [colCount]

/-- Claim C10 witness: the input "k=" followed by a null byte fails at line
0, column 2 with the message naming byte 00. -/
theorem claim10_null_in_value_witness :
    Parse [0x6B, 0x3D, 0x00] = .error ⟨"illegal character 00 in value", 0, 2⟩ := by
  have h := claim10_null_in_value [0x6B, 0x3D, 0x00] 2
    ⟨[], .kvValue (some ⟨[]⟩) [0x6B] none [], 0, 2⟩ (some ⟨[]⟩) [0x6B] none []
    (by decide) rfl (by decide) rfl
  have h2 : ((([0x6B, 0x3D, 0x00] : List Nat).take 2).count B_NEWLINE) = 0 := by decide
  have h3 : colCount (([0x6B, 0x3D, 0x00] : List Nat).take 2) = 2 := by decide
  rw [h2, h3] at h
  exact h

end Montoya
